import Mathlib

/-!
# Verification of the jsonbody middleware (Go)

Shallow embedding of the jsonbody library: a JSON request-body validator
(`validate.go`), the request pipeline (`jsonbody.go`, `middleware.ServeHTTP`
and `decodeBody`) and the write-once response writer (`writer.go`,
`Writer.WriteJSON` / `Writer.WriteErrors`).

JSON values decoded by Go's `encoding/json` into `interface{}` are one of:
`nil`, `bool`, `float64`, `string`, `[]interface{}`, `map[string]interface{}`.
We model them with the inductive `Json` below.  Go maps are modelled as
association lists (first match wins on lookup, mirroring the unique-key maps
produced by `json.Unmarshal`); the list order stands for the (deterministic
within one call) iteration order of the Go map.  The validator never inspects
numeric values, only their kind, so numbers are carried as `Int` rather than
a float type.
-/

namespace Jsonbody

/-- A decoded JSON value (the `interface{}` produced by `json.Unmarshal`). -/
inductive Json where
  | null
  | bool (b : Bool)
  | num (n : Int)
  | str (s : String)
  | arr (elems : List Json)
  | obj (fields : List (String × Json))
deriving Repr

/-- Go map indexing `m[k]`: first entry with the given key. -/
def lookupField : List (String × Json) → String → Option Json
  | [], _ => none
  | (k, v) :: rest, key => if k = key then some v else lookupField rest key

/-- The error text `fmt.Sprintf("expected key '%v' missing", newKey)`. -/
def missingMsg (newKey : String) : String :=
  "expected key \x27" ++ newKey ++ "\x27 missing"

/-- The error text
`fmt.Sprintf("value for key '%v' expected to be of type %v", key, kind)`. -/
def typeMsg (key kind : String) : String :=
  "value for key \x27" ++ key ++ "\x27 expected to be of type " ++ kind

/-- Key-path construction in `validateObject`: `newKey` is the bare field
name at top level, and `key + "." + name` below. -/
def mkKey (key ek : String) : String :=
  if key = "" then ek else key ++ "." ++ ek

/-- `strings.HasPrefix(s, "?")` from Go: the first character is `?`. -/
def startsQ (s : String) : Bool := s.take 1 = "?"

/-- `strings.TrimPrefix(s, "?")` from Go: remove a leading `?` if there is
one. -/
def stripQ (s : String) : String := if startsQ s then s.drop 1 else s

mutual

/-- `validateSingle` from validate.go: a type switch on the expected
(schema) value.  A `nil` schema value (JSON `null`) matches no case of the
switch and yields no errors. -/
def validateSingle (key : String) (expected : Json) (actual : Json) : List String :=
  match expected with
  | .str _ =>
    match actual with
    | .str _ => []
    | _ => [typeMsg key "string"]
  | .bool _ =>
    match actual with
    | .bool _ => []
    | _ => [typeMsg key "boolean"]
  | .num _ =>
    match actual with
    | .num _ => []
    | _ => [typeMsg key "number"]
  | .arr es =>
    match actual with
    | .arr as => validateArray key es as
    | _ => [typeMsg key "array"]
  | .obj efs =>
    match actual with
    | .obj afs => validateObject key efs afs
    | _ => [typeMsg key "object"]
  | .null => []
termination_by (sizeOf expected, 0)

/-- `validateArray` from validate.go: an empty schema array accepts
anything; otherwise every actual element is checked against the first
schema element, with bracket-indexed key paths. -/
def validateArray (key : String) (expected : List Json) (actual : List Json) : List String :=
  match expected with
  | [] => []
  | e :: _ => validateArrayFrom key e actual 0
termination_by (sizeOf expected, 1)

/-- The `for i, actualVal := range actual` loop of `validateArray`,
carrying the running index `i`. -/
def validateArrayFrom (key : String) (e : Json) (actual : List Json) (i : Nat) : List String :=
  match actual with
  | [] => []
  | a :: rest =>
    validateSingle (key ++ "[" ++ toString i ++ "]") e a ++
      validateArrayFrom key e rest (i + 1)
termination_by (sizeOf e, 1 + sizeOf actual)

/-- The body of the `for expectedKey, expectedVal := range expected` loop of
`validateObject`, for one schema field `p`: strip the `?` optionality
marker, build the key path, then either report a missing required key,
skip a missing optional key, or recursively validate a present value. -/
def fieldErrs (key : String) (actual : List (String × Json)) (p : String × Json) : List String :=
  let optional := startsQ p.1
  let ek := stripQ p.1
  let newKey := mkKey key ek
  match lookupField actual ek with
  | none => if optional then [] else [missingMsg newKey]
  | some av => validateSingle newKey p.2 av
termination_by (sizeOf p, 2)
decreasing_by
  cases p
  simp
  omega

/-- `validateObject` from validate.go: an empty schema object accepts
anything; otherwise each schema field contributes its `fieldErrs`. -/
def validateObject (key : String) (expected actual : List (String × Json)) : List String :=
  if expected.isEmpty then [] else validateObjectFields key expected actual
termination_by (sizeOf expected, 4)

/-- The field loop of `validateObject`, appending the per-field error
lists in iteration order. -/
def validateObjectFields (key : String) (expected actual : List (String × Json)) : List String :=
  match expected with
  | [] => []
  | p :: rest => fieldErrs key actual p ++ validateObjectFields key rest actual
termination_by (sizeOf expected, 3)

end

/-- `validateReqBody` from validate.go.  `none` for `expected` is the Go
`nil` map: the "no schema" sentinel.  `none` for `actual` is a `nil`
decoded body (no body was supplied). -/
def validateReqBody (expected actual : Option (List (String × Json))) : List String :=
  match expected with
  | none => []
  | some exp =>
    match actual with
    | none => ["expected a JSON body"]
    | some act => validateObject "" exp act

/-! ## JSON encoding (`json.Marshal`)

Only the pieces the claims need: the exact bytes of the error envelope
`map[string][]string{"errors": errs}` and the fact that `json.Marshal` can
fail on non-serializable Go values.  Go's default HTML escaping of `<`, `>`
and `&` is not modelled (no string in this development contains them). -/

/-- Escaping of one character inside a JSON string literal. -/
def escapeChar (c : Char) : String :=
  if c = '"' ∨ c = '\\' then "\\" ++ c.toString else c.toString

/-- Escaping of a JSON string literal's contents. -/
def escapeString (s : String) : String :=
  String.join (s.data.map escapeChar)

mutual

/-- Rendering of a `Json` document as `json.Marshal` output text. -/
def encodeJson : Json → String
  | .null => "null"
  | .bool b => Bool.rec "false" "true" b
  | .num n => toString n
  | .str s => "\"" ++ escapeString s ++ "\""
  | .arr xs => "[" ++ encodeElems xs ++ "]"
  | .obj fs => "\x7b" ++ encodeFields fs ++ "\x7d"

/-- Comma-separated rendering of array elements. -/
def encodeElems : List Json → String
  | [] => ""
  | [x] => encodeJson x
  | x :: y :: rest => encodeJson x ++ "," ++ encodeElems (y :: rest)

/-- Comma-separated rendering of object fields. -/
def encodeFields : List (String × Json) → String
  | [] => ""
  | [(k, v)] => "\"" ++ escapeString k ++ "\":" ++ encodeJson v
  | (k, v) :: q :: rest =>
    "\"" ++ escapeString k ++ "\":" ++ encodeJson v ++ "," ++ encodeFields (q :: rest)

end

/-- The bytes of `json.Marshal(map[string][]string{"errors": msgs})`. -/
def encodeErrors (msgs : List String) : String :=
  encodeJson (.obj [("errors", .arr (msgs.map .str))])

/-! ## The write-once response writer (writer.go)

`Writer` wraps an `http.ResponseWriter`.  We keep the `written` flag, whether
the Content-Type header has been set, and the list of byte strings the
underlying transport accepted.  A Go value handed to `WriteJSON` either
marshals to some JSON text or is rejected by `json.Marshal`; the underlying
`w.Write` call either accepts the bytes or returns a transport error, which
we pass in as the `transportOk` argument of the call. -/

/-- A Go `interface{}` argument of `WriteJSON`, abstracted to what
`json.Marshal` does with it. -/
inductive GoValue where
  | json (v : Json)
  | unserializable
deriving Repr

/-- `json.Marshal` on a `GoValue`. -/
def marshal : GoValue → Option String
  | .json v => some (encodeJson v)
  | .unserializable => none

/-- The state of a `Writer` (writer.go). -/
structure Writer where
  written : Bool
  contentTypeSet : Bool
  output : List String
deriving Repr, DecidableEq

/-- The `Writer{ResponseWriter: w}` created at the start of `ServeHTTP`. -/
def initWriter : Writer := ⟨false, false, []⟩

/-- The possible results of `WriteJSON` / `WriteErrors`. -/
inductive WriteResult where
  | ok
  | alreadyWritten   -- "method has already been called once and cannot be called again"
  | encodeFailed     -- "encoding the response body as JSON failed"
  | sendFailed       -- "sending the response body failed"
deriving Repr, DecidableEq

/-- `Writer.WriteJSON` from writer.go: refuse if already written; marshal the
body (failure leaves the writer untouched); set the Content-Type header;
write the bytes (a transport failure leaves `written` false and adds no
output); on success record the bytes and set `written`. -/
def Writer.WriteJSON (w : Writer) (body : GoValue) (transportOk : Bool) :
    WriteResult × Writer :=
  if w.written then (.alreadyWritten, w)
  else
    match marshal body with
    | none => (.encodeFailed, w)
    | some bytes =>
      let w := { w with contentTypeSet := true }
      if transportOk then (.ok, { w with output := w.output ++ [bytes], written := true })
      else (.sendFailed, w)

/-- `Writer.WriteErrors` from writer.go: `WriteJSON` of the errors
envelope. -/
def Writer.WriteErrors (w : Writer) (msgs : List String) (transportOk : Bool) :
    WriteResult × Writer :=
  w.WriteJSON (.json (.obj [("errors", .arr (msgs.map .str))])) transportOk

/-- One call made against a `Writer` by a handler: either method, together
with whether the transport would accept the write. -/
inductive WCall where
  | jsonCall (body : GoValue) (transportOk : Bool)
  | errsCall (msgs : List String) (transportOk : Bool)

/-- Perform one `WCall`. -/
def doCall (w : Writer) : WCall → WriteResult × Writer
  | .jsonCall b t => w.WriteJSON b t
  | .errsCall es t => w.WriteErrors es t

/-- Perform a sequence of calls, collecting each call's result. -/
def runCalls (w : Writer) : List WCall → List WriteResult × Writer
  | [] => ([], w)
  | c :: rest =>
    let r := doCall w c
    let rs := runCalls r.2 rest
    (r.1 :: rs.1, rs.2)

/-! ## The request pipeline (jsonbody.go)

`middleware.ServeHTTP` and `decodeBody` of the current revision:
content-type check (only when a schema is configured), decode, validate,
dispatch.  A request is abstracted to its declared content type, its
`ContentLength`, and what its body bytes amount to: a transport read fault,
bytes `json.Unmarshal` rejects, or bytes that decode to a JSON value. -/

/-- What reading and unmarshalling the request body yields. -/
inductive BodyContent where
  | readFault             -- r.Body.Read returns a non-EOF error
  | notJSON               -- json.Unmarshal returns an error
  | jsonValue (v : Json)  -- json.Unmarshal decodes the bytes to v
deriving Repr

/-- An incoming request, as the pipeline observes it. -/
structure Request where
  contentType : String    -- r.Header.Get("Content-Type")
  contentLength : Nat     -- r.ContentLength
  content : BodyContent

/-- The outcome of `decodeBody` (jsonbody.go). `panicked` is the unchecked
type assertion `bodyJSON.(map[string]interface{})` failing because the
decoded value is not a JSON object (including JSON `null`, which decodes to
a nil interface). -/
inductive DecodeResult where
  | ok (body : Option (List (String × Json)))
  | badBody      -- errBadBody
  | serverErr    -- errServerErr
  | panicked
deriving Repr

/-- `decodeBody` from jsonbody.go: a zero `ContentLength` yields a nil map
and no error (validation decides later); a read fault is `errServerErr`;
bytes that fail `json.Unmarshal` are `errBadBody`; otherwise the decoded
value is force-cast to a map. -/
def decodeBody (r : Request) : DecodeResult :=
  if r.contentLength = 0 then .ok none
  else
    match r.content with
    | .readFault => .serverErr
    | .notJSON => .badBody
    | .jsonValue v =>
      match v with
      | .obj fs => .ok (some fs)
      | _ => .panicked

/-- A response emission performed by the pipeline itself. -/
inductive WriteEvent where
  | errsWrite (status : Nat) (msgs : List String)  -- writer.WriteErrors(status, msgs...)
  | headerWrite (status : Nat)                     -- writer.WriteHeader(status)
deriving Repr, DecidableEq

/-- The JSON body a `WriteEvent` sends, when it sends one. -/
def eventBody : WriteEvent → Option String
  | .errsWrite _ msgs => some (encodeErrors msgs)
  | .headerWrite _ => none

/-- Everything observable about one `ServeHTTP` run: the response emissions
made by the pipeline, whether the downstream handler was invoked, whether
the request body was read, and whether the run panicked. -/
structure ServeResult where
  events : List WriteEvent
  nextInvoked : Bool
  bodyRead : Bool
  panicked : Bool
deriving Repr, DecidableEq

/-- `middleware.ServeHTTP` from jsonbody.go.  `decodeBody` reads from
`r.Body` exactly when `ContentLength` is nonzero. -/
def serveHTTP (schema : Option (List (String × Json))) (r : Request) : ServeResult :=
  if schema.isSome ∧ r.contentType ≠ "application/json" then
    ⟨[.errsWrite 400 ["content type must be application/json"]], false, false, false⟩
  else
    let didRead := r.contentLength ≠ 0
    match decodeBody r with
    | .badBody => ⟨[.errsWrite 400 ["expected a JSON body"]], false, didRead, false⟩
    | .serverErr => ⟨[.headerWrite 500], false, didRead, false⟩
    | .panicked => ⟨[], false, didRead, true⟩
    | .ok body =>
      let errs := validateReqBody schema body
      if errs.length > 0 then ⟨[.errsWrite 400 errs], false, didRead, false⟩
      else ⟨[], true, didRead, false⟩

/-! ## Auxiliary notions and shared lemmas -/

/-- Removal of one key from a decoded object (the body without that
field). -/
def removeField : List (String × Json) → String → List (String × Json)
  | [], _ => []
  | p :: rest, k => if p.1 = k then removeField rest k else p :: removeField rest k

theorem validateObjectFields_eq_flatten (key : String) (actual : List (String × Json)) :
    ∀ expected, validateObjectFields key expected actual
      = (expected.map (fieldErrs key actual)).flatten := by
  intro expected
  induction expected with
  | nil => simp [validateObjectFields]
  | cons p rest ih => simp [validateObjectFields, ih]

theorem validateObject_eq_flatten (key : String) (expected actual : List (String × Json)) :
    validateObject key expected actual = (expected.map (fieldErrs key actual)).flatten := by
  cases expected with
  | nil => simp [validateObject]
  | cons p rest => simp [validateObject, validateObjectFields_eq_flatten]

theorem lookupField_removeField (actual : List (String × Json)) (k j : String) :
    lookupField (removeField actual k) j
      = if j = k then none else lookupField actual j := by
  induction actual with
  | nil => by_cases h : j = k <;> simp [removeField, lookupField, h]
  | cons p rest ih =>
    obtain ⟨pk, pv⟩ := p
    simp only [removeField]
    by_cases h1 : pk = k
    · rw [if_pos h1, ih]
      by_cases h2 : j = k
      · simp [lookupField, h2]
      · have hpj : ¬(pk = j) := by
          rw [h1]
          exact fun hh => h2 hh.symm
        simp [lookupField, h2, hpj]
    · rw [if_neg h1]
      by_cases h3 : pk = j
      · have h2 : ¬(j = k) := fun hjk => h1 (h3.trans hjk)
        simp [lookupField, h3, h2]
      · simp [lookupField, h3, ih]

theorem fieldErrs_of_missing_required (key : String) (actual : List (String × Json))
    (p : String × Json) (h1 : startsQ p.1 = false)
    (h2 : lookupField actual (stripQ p.1) = none) :
    fieldErrs key actual p = [missingMsg (mkKey key (stripQ p.1))] := by
  simp [fieldErrs, h1, h2]

theorem fieldErrs_of_missing_optional (key : String) (actual : List (String × Json))
    (p : String × Json) (h1 : startsQ p.1 = true)
    (h2 : lookupField actual (stripQ p.1) = none) :
    fieldErrs key actual p = [] := by
  simp [fieldErrs, h1, h2]

theorem fieldErrs_of_present (key : String) (actual : List (String × Json))
    (p : String × Json) (av : Json)
    (h : lookupField actual (stripQ p.1) = some av) :
    fieldErrs key actual p = validateSingle (mkKey key (stripQ p.1)) p.2 av := by
  simp [fieldErrs, h]

theorem fieldErrs_cons_ne (key k : String) (v : Json) (actual : List (String × Json))
    (p : String × Json) (h : stripQ p.1 ≠ k) :
    fieldErrs key ((k, v) :: actual) p = fieldErrs key actual p := by
  have hk : ¬(k = stripQ p.1) := fun hh => h hh.symm
  simp [fieldErrs, lookupField, hk]

theorem fieldErrs_removeField_ne (key k : String) (actual : List (String × Json))
    (p : String × Json) (h : stripQ p.1 ≠ k) :
    fieldErrs key (removeField actual k) p = fieldErrs key actual p := by
  simp [fieldErrs, lookupField_removeField, h]

theorem validateArrayFrom_eq_flatten (key : String) (e : Json) :
    ∀ (actual : List Json) (i : Nat),
      validateArrayFrom key e actual i
        = ((List.enumFrom i actual).map
            (fun q => validateSingle (key ++ "[" ++ toString q.1 ++ "]") e q.2)).flatten := by
  intro actual
  induction actual with
  | nil => intro i; simp [validateArrayFrom]
  | cons a rest ih => intro i; simp [validateArrayFrom, List.enumFrom, ih]

/-! ## Claim theorems -/

/-- C1: `validateObject` is the concatenation of per-field results; a
required (non-optional) template field absent from the actual object
contributes exactly its one missing-key error; a field present in both is
recursively validated; an empty template yields no errors; adding an extra
key unrelated to the template to the actual object never changes the
result; and for schema `{"s": "", "b": false, "n": 0, "o": {}, "a": []}`
against body `{"1": "hi"}` the result is exactly the 5 missing-key
errors. -/
theorem validateObject_contract_C1 :
    (∀ (key : String) (expected actual : List (String × Json)),
        validateObject key expected actual
          = (expected.map (fieldErrs key actual)).flatten)
    ∧ (∀ (key : String) (actual : List (String × Json)) (p : String × Json),
        startsQ p.1 = false → lookupField actual (stripQ p.1) = none →
        fieldErrs key actual p = [missingMsg (mkKey key (stripQ p.1))])
    ∧ (∀ (key : String) (actual : List (String × Json)) (p : String × Json) (av : Json),
        lookupField actual (stripQ p.1) = some av →
        fieldErrs key actual p = validateSingle (mkKey key (stripQ p.1)) p.2 av)
    ∧ (∀ (key : String) (actual : List (String × Json)),
        validateObject key [] actual = [])
    ∧ (∀ (key : String) (expected actual : List (String × Json)) (k : String) (v : Json),
        (∀ p ∈ expected, stripQ p.1 ≠ k) →
        validateObject key expected ((k, v) :: actual) = validateObject key expected actual)
    ∧ validateObject ""
        [("s", .str ""), ("b", .bool false), ("n", .num 0), ("o", .obj []), ("a", .arr [])]
        [("1", .str "hi")]
      = [missingMsg "s", missingMsg "b", missingMsg "n", missingMsg "o", missingMsg "a"] := by
  refine ⟨validateObject_eq_flatten,
          fieldErrs_of_missing_required,
          fieldErrs_of_present,
          fun key actual => by simp [validateObject],
          ?_, ?_⟩
  · intro key expected actual k v h
    rw [validateObject_eq_flatten, validateObject_eq_flatten]
    congr 1
    exact List.map_congr_left fun p hp => fieldErrs_cons_ne key k v actual p (h p hp)
  · simp +decide [validateObject, validateObjectFields, fieldErrs, lookupField, mkKey,
      startsQ, stripQ, missingMsg]

/-- Witness for C1: the missing-required, present-field and extra-key parts
applied at concrete inputs. -/
theorem validateObject_contract_C1_witness :
    fieldErrs "" [] ("s", Json.str "") = [missingMsg (mkKey "" (stripQ "s"))]
    ∧ fieldErrs "" [("s", Json.bool true)] ("s", Json.str "")
        = validateSingle (mkKey "" (stripQ "s")) (Json.str "") (Json.bool true)
    ∧ validateObject "" [("s", Json.str "")] [("x", Json.num 1), ("s", Json.str "y")]
        = validateObject "" [("s", Json.str "")] [("s", Json.str "y")] := by
  have h := validateObject_contract_C1
  refine ⟨h.2.1 "" [] ("s", Json.str "") (by decide) rfl,
          h.2.2.1 "" [("s", Json.bool true)] ("s", Json.str "") (Json.bool true) (by rfl),
          h.2.2.2.2.1 "" [("s", Json.str "")] [("s", Json.str "y")] "x" (Json.num 1) ?_⟩
  intro p hp
  rw [List.mem_singleton] at hp
  subst hp
  decide

/-- C4: against an array template, a non-array actual value yields exactly
the one type-mismatch error for that key path; against a non-empty array
template, every element of the actual array is validated against the first
template element under bracket-indexed paths; an empty array template
accepts any actual array. -/
theorem validateArray_contract_C4 :
    (∀ (key : String) (es : List Json) (a : Json),
        (∀ xs, a ≠ Json.arr xs) →
        validateSingle key (.arr es) a = [typeMsg key "array"])
    ∧ (∀ (key : String) (e : Json) (rest as : List Json),
        validateArray key (e :: rest) as
          = (as.enum.map
              (fun q => validateSingle (key ++ "[" ++ toString q.1 ++ "]") e q.2)).flatten)
    ∧ (∀ (key : String) (as : List Json), validateArray key [] as = []) := by
  refine ⟨?_, ?_, fun key as => by simp [validateArray]⟩
  · intro key es a h
    cases a with
    | arr xs => exact absurd rfl (h xs)
    | null => simp [validateSingle]
    | bool b => simp [validateSingle]
    | num n => simp [validateSingle]
    | str s => simp [validateSingle]
    | obj fs => simp [validateSingle]
  · intro key e rest as
    simp [validateArray, validateArrayFrom_eq_flatten, List.enum]

/-- Witness for C4: a number against an array template. -/
theorem validateArray_contract_C4_witness :
    validateSingle "k" (.arr [Json.num 0]) (Json.num 3) = [typeMsg "k" "array"] :=
  validateArray_contract_C4.1 "k" [Json.num 0] (Json.num 3) (fun _ h => nomatch h)

/-- C5: removing from the actual object a key whose template fields are all
optional never introduces an error (the result only shrinks); an optional
field's contribution uses the key path with the marker stripped, is empty
when the field is absent, and still validates the value when present;
removing a required field makes that field contribute exactly its one
missing-key error, which appears in the overall result; and schema
`{"?species": "", "aquatic": false}` accepts body `{"aquatic": true}`. -/
theorem optionalField_contract_C5 :
    (∀ (key : String) (expected actual : List (String × Json)) (k : String),
        (∀ p ∈ expected, stripQ p.1 = k → startsQ p.1 = true) →
        (validateObject key expected (removeField actual k)).Sublist
          (validateObject key expected actual))
    ∧ (∀ (key : String) (actual : List (String × Json)) (p : String × Json),
        startsQ p.1 = true →
        (lookupField actual (stripQ p.1) = none → fieldErrs key actual p = [])
        ∧ (∀ av, lookupField actual (stripQ p.1) = some av →
            fieldErrs key actual p = validateSingle (mkKey key (stripQ p.1)) p.2 av))
    ∧ (∀ (key : String) (expected actual : List (String × Json)) (p : String × Json),
        p ∈ expected → startsQ p.1 = false →
        fieldErrs key (removeField actual (stripQ p.1)) p
            = [missingMsg (mkKey key (stripQ p.1))]
        ∧ missingMsg (mkKey key (stripQ p.1))
            ∈ validateObject key expected (removeField actual (stripQ p.1)))
    ∧ validateObject "" [("?species", .str ""), ("aquatic", .bool false)]
        [("aquatic", .bool true)] = [] := by
  refine ⟨?_, ?_, ?_, ?_⟩
  · intro key expected actual k h
    rw [validateObject_eq_flatten, validateObject_eq_flatten]
    induction expected with
    | nil => simp
    | cons p rest ih =>
      simp only [List.map_cons, List.flatten_cons]
      refine List.Sublist.append ?_
        (ih (fun q hq hqk => h q (List.mem_cons_of_mem p hq) hqk))
      by_cases hk : stripQ p.1 = k
      · have hopt := h p (List.mem_cons_self p rest) hk
        have hnone : lookupField (removeField actual k) (stripQ p.1) = none := by
          rw [hk, lookupField_removeField]
          simp
        rw [fieldErrs_of_missing_optional key _ p hopt hnone]
        exact List.nil_sublist _
      · rw [fieldErrs_removeField_ne key k actual p hk]
  · intro key actual p h1
    exact ⟨fun h2 => fieldErrs_of_missing_optional key actual p h1 h2,
           fun av h2 => fieldErrs_of_present key actual p av h2⟩
  · intro key expected actual p hmem hreq
    have hnone : lookupField (removeField actual (stripQ p.1)) (stripQ p.1) = none := by
      rw [lookupField_removeField]
      simp
    have heq := fieldErrs_of_missing_required key _ p hreq hnone
    refine ⟨heq, ?_⟩
    rw [validateObject_eq_flatten]
    apply List.mem_flatten.mpr
    exact ⟨_, List.mem_map_of_mem _ hmem, by rw [heq]; exact List.mem_singleton_self _⟩
  · simp +decide [validateObject, validateObjectFields, fieldErrs, lookupField, mkKey,
      startsQ, stripQ, validateSingle]

/-- Witness for C5: an absent optional field contributes nothing; a removed
required field contributes its missing-key error. -/
theorem optionalField_contract_C5_witness :
    fieldErrs "" [] ("?s", Json.str "") = []
    ∧ fieldErrs "" (removeField [("s", Json.str "x")] (stripQ "s")) ("s", Json.str "")
        = [missingMsg (mkKey "" (stripQ "s"))] := by
  have h := optionalField_contract_C5
  refine ⟨(h.2.1 "" [] ("?s", Json.str "") (by decide)).1 rfl, ?_⟩
  exact (h.2.2.1 "" [("s", Json.str "")] [("s", Json.str "x")] ("s", Json.str "")
      (List.mem_singleton_self _) (by decide)).1

/-- C10: a `null` schema value matches no case of `validateSingle`'s type
switch, so it accepts an actual value of any kind; a present field with a
`null` template contributes no error whatever its value, while the field's
presence is still required when it is not optional. -/
theorem nullSchema_contract_C10 :
    (∀ (key : String) (a : Json), validateSingle key Json.null a = [])
    ∧ (∀ (key : String) (actual : List (String × Json)) (p : String × Json) (av : Json),
        p.2 = Json.null → lookupField actual (stripQ p.1) = some av →
        fieldErrs key actual p = [])
    ∧ (∀ (key : String) (actual : List (String × Json)) (p : String × Json),
        p.2 = Json.null → startsQ p.1 = false → lookupField actual (stripQ p.1) = none →
        fieldErrs key actual p = [missingMsg (mkKey key (stripQ p.1))]) := by
  have h1 : ∀ (key : String) (a : Json), validateSingle key Json.null a = [] := by
    intro key a
    simp [validateSingle]
  refine ⟨h1, ?_, ?_⟩
  · intro key actual p av hp hl
    rw [fieldErrs_of_present key actual p av hl, hp, h1]
  · intro key actual p _ hreq hl
    exact fieldErrs_of_missing_required key actual p hreq hl

/-- Witness for C10: a boolean under a `null` schema field passes; a missing
required `null`-templated field is still reported. -/
theorem nullSchema_contract_C10_witness :
    fieldErrs "" [("n", Json.bool true)] ("n", Json.null) = []
    ∧ fieldErrs "" [] ("n", Json.null) = [missingMsg (mkKey "" (stripQ "n"))] := by
  have h := nullSchema_contract_C10
  exact ⟨h.2.1 "" [("n", Json.bool true)] ("n", Json.null) (Json.bool true) rfl rfl,
         h.2.2 "" [] ("n", Json.null) rfl (by decide) rfl⟩

/-- C7: with a schema configured, a request whose declared content type is
not application/json gets the fixed 400 error response, the downstream
handler is not invoked and the body is not read; with no schema configured
the content type is never consulted. -/
theorem contentType_contract_C7 :
    (∀ (s : List (String × Json)) (r : Request), r.contentType ≠ "application/json" →
        serveHTTP (some s) r
          = ⟨[.errsWrite 400 ["content type must be application/json"]], false, false, false⟩)
    ∧ (∀ (r : Request) (c1 c2 : String),
        serveHTTP none { r with contentType := c1 }
          = serveHTTP none { r with contentType := c2 }) := by
  constructor
  · intro s r h
    simp [serveHTTP, h]
  · intro r c1 c2
    simp [serveHTTP, decodeBody]

/-- Witness for C7: a text/html request against a configured schema. -/
theorem contentType_contract_C7_witness :
    serveHTTP (some []) { contentType := "text/html", contentLength := 0, content := .notJSON }
      = ⟨[.errsWrite 400 ["content type must be application/json"]], false, false, false⟩ :=
  contentType_contract_C7.1 [] _ (by decide)

/-- C2: whenever the content-type check, the body decode, or the schema
validation fails, `ServeHTTP` does not invoke the downstream handler and
emits exactly one response; conversely, if the downstream handler is
invoked the pipeline itself emitted no response. -/
theorem shortCircuit_contract_C2 :
    ∀ (schema : Option (List (String × Json))) (r : Request),
      (((schema.isSome ∧ r.contentType ≠ "application/json")
         ∨ decodeBody r = .badBody
         ∨ decodeBody r = .serverErr
         ∨ (∃ b, decodeBody r = .ok b ∧ validateReqBody schema b ≠ [])) →
        (serveHTTP schema r).nextInvoked = false
          ∧ (serveHTTP schema r).events.length = 1)
      ∧ ((serveHTTP schema r).nextInvoked = true → (serveHTTP schema r).events = []) := by
  intro schema r
  constructor
  · intro h
    by_cases hct : schema.isSome ∧ r.contentType ≠ "application/json"
    · simp [serveHTTP, hct]
    · rcases h with h | h | h | ⟨b, hb, hv⟩
      · exact absurd h hct
      · simp [serveHTTP, hct, h]
      · simp [serveHTTP, hct, h]
      · have hpos : 0 < (validateReqBody schema b).length := List.length_pos.mpr hv
        simp [serveHTTP, hct, hb, hpos]
  · intro h
    by_cases hct : schema.isSome ∧ r.contentType ≠ "application/json"
    · simp [serveHTTP, hct] at h
    · cases hdec : decodeBody r with
      | ok b =>
        by_cases hlen : 0 < (validateReqBody schema b).length
        · simp [serveHTTP, hct, hdec, hlen] at h
        · simp [serveHTTP, hct, hdec, hlen]
      | badBody => simp [serveHTTP, hct, hdec] at h
      | serverErr => simp [serveHTTP, hct, hdec] at h
      | panicked => simp [serveHTTP, hct, hdec] at h

/-- Witness for C2: a request whose body is not JSON. -/
theorem shortCircuit_contract_C2_witness :
    (serveHTTP none ⟨"application/json", 5, .notJSON⟩).nextInvoked = false
    ∧ (serveHTTP none ⟨"application/json", 5, .notJSON⟩).events.length = 1 :=
  (shortCircuit_contract_C2 none _).1 (Or.inr (Or.inl rfl))

/-- C3: `validateReqBody` with the nil-schema sentinel accepts anything,
including an absent body; with a schema and an absent (nil) body it returns
exactly ["expected a JSON body"], which the pipeline emits as a 400
response whose rendered body is `{"errors":["expected a JSON body"]}`. -/
theorem noSchema_noBody_contract_C3 :
    (∀ (a : Option (List (String × Json))), validateReqBody none a = [])
    ∧ (∀ (t : List (String × Json)), validateReqBody (some t) none = ["expected a JSON body"])
    ∧ (∀ (t : List (String × Json)) (r : Request),
        r.contentType = "application/json" → r.contentLength = 0 →
        serveHTTP (some t) r = ⟨[.errsWrite 400 ["expected a JSON body"]], false, false, false⟩)
    ∧ eventBody (.errsWrite 400 ["expected a JSON body"])
        = some "\x7b\"errors\":[\"expected a JSON body\"]\x7d" := by
  refine ⟨fun a => rfl, fun t => rfl, ?_, ?_⟩
  · intro t r h1 h2
    simp [serveHTTP, decodeBody, h1, h2, validateReqBody]
  · simp [eventBody, encodeErrors, encodeJson, encodeFields, encodeElems,
      escapeString, escapeChar]
    decide

/-- Witness for C3: Scenario D, a request with no body against schema
`{"s": ""}`. -/
theorem noSchema_noBody_contract_C3_witness :
    serveHTTP (some [("s", Json.str "")]) ⟨"application/json", 0, .notJSON⟩
      = ⟨[.errsWrite 400 ["expected a JSON body"]], false, false, false⟩ :=
  noSchema_noBody_contract_C3.2.2.1 [("s", Json.str "")] _ rfl rfl

/-- C9: the code, evaluated at a request whose body is valid JSON but not a
JSON object at top level: `decodeBody`'s unchecked type assertion panics,
so `ServeHTTP` emits no response at all and never reaches the downstream
handler — the failure is not absorbed, contradicting the claim. -/
theorem decodeBody_panics_C9 :
    decodeBody ⟨"application/json", 3, .jsonValue (.arr [.num 1])⟩ = .panicked
    ∧ serveHTTP none ⟨"application/json", 3, .jsonValue (.arr [.num 1])⟩
        = ⟨[], false, true, true⟩
    ∧ serveHTTP (some [("s", .str "")]) ⟨"application/json", 3, .jsonValue (.arr [.num 1])⟩
        = ⟨[], false, true, true⟩ := by
  refine ⟨rfl, ?_, ?_⟩ <;> simp [serveHTTP, decodeBody]

/-- C6: the `written` flag starts false, a successful `WriteJSON` sets it, a
failed call leaves flag and output unchanged, and once the flag is set every
subsequent call of either method (`WriteJSON` directly or via
`WriteErrors`) fails with the already-written error and performs no I/O. -/
theorem writeOnce_contract_C6 :
    initWriter.written = false
    ∧ (∀ (w : Writer) (b : GoValue) (t : Bool),
        (w.WriteJSON b t).1 = .ok → (w.WriteJSON b t).2.written = true)
    ∧ (∀ (w : Writer) (b : GoValue) (t : Bool),
        (w.WriteJSON b t).1 ≠ .ok →
          (w.WriteJSON b t).2.written = w.written ∧ (w.WriteJSON b t).2.output = w.output)
    ∧ (∀ (w : Writer) (calls : List WCall), w.written = true →
        runCalls w calls = (calls.map fun _ => WriteResult.alreadyWritten, w)) := by
  have hfail : ∀ (w : Writer) (b : GoValue) (t : Bool),
      (w.WriteJSON b t).1 ≠ .ok →
        (w.WriteJSON b t).2.written = w.written ∧ (w.WriteJSON b t).2.output = w.output := by
    intro w b t h
    by_cases hw : w.written
    · simp [Writer.WriteJSON, hw]
    · cases hm : marshal b with
      | none => simp [Writer.WriteJSON, hw, hm]
      | some s =>
        cases t with
        | false => simp [Writer.WriteJSON, hw, hm]
        | true => exact absurd (by simp [Writer.WriteJSON, hw, hm]) h
  refine ⟨rfl, ?_, hfail, ?_⟩
  · intro w b t h
    by_cases hw : w.written
    · simp [Writer.WriteJSON, hw] at h
    · cases hm : marshal b with
      | none => simp [Writer.WriteJSON, hw, hm] at h
      | some s =>
        cases t with
        | false => simp [Writer.WriteJSON, hw, hm] at h
        | true => simp [Writer.WriteJSON, hw, hm]
  · intro w calls hw
    induction calls with
    | nil => rfl
    | cons c rest ih =>
      have hc : doCall w c = (.alreadyWritten, w) := by
        cases c with
        | jsonCall b t => simp [doCall, Writer.WriteJSON, hw]
        | errsCall es t => simp [doCall, Writer.WriteErrors, Writer.WriteJSON, hw]
      simp [runCalls, hc, ih]

/-- Witness for C6: an already-written writer rejects both methods twice
over; a fresh writer's successful write sets the flag. -/
theorem writeOnce_contract_C6_witness :
    runCalls ⟨true, false, []⟩ [.jsonCall (.json .null) true, .errsCall ["e"] true]
      = ([.alreadyWritten, .alreadyWritten], ⟨true, false, []⟩)
    ∧ (Writer.WriteJSON ⟨false, false, []⟩ (.json .null) true).2.written = true := by
  have h := writeOnce_contract_C6
  exact ⟨h.2.2.2 ⟨true, false, []⟩ [.jsonCall (.json .null) true, .errsCall ["e"] true] rfl,
         h.2.1 ⟨false, false, []⟩ (.json .null) true rfl⟩

/-- C8: when serialization fails, `WriteJSON` returns the encode error and
the writer is completely untouched (flag false, no bytes); when the
transport write fails, `WriteJSON` returns the send error with the flag
still false and no output added, and an immediate retry succeeds and
appends exactly the serialized bytes. -/
theorem writerError_contract_C8 :
    ∀ (w : Writer) (b : GoValue) (t : Bool),
      w.written = false →
      ((marshal b = none → w.WriteJSON b t = (.encodeFailed, w))
       ∧ (∀ s, marshal b = some s →
          (w.WriteJSON b false).1 = .sendFailed
          ∧ (w.WriteJSON b false).2.written = false
          ∧ (w.WriteJSON b false).2.output = w.output
          ∧ ((w.WriteJSON b false).2.WriteJSON b true).1 = .ok
          ∧ ((w.WriteJSON b false).2.WriteJSON b true).2.output = w.output ++ [s])) := by
  intro w b t hw
  constructor
  · intro hm
    simp [Writer.WriteJSON, hw, hm]
  · intro s hm
    simp [Writer.WriteJSON, hw, hm]

/-- Witness for C8: an unserializable value on a fresh writer; a
serializable value against a transport that fails once then recovers. -/
theorem writerError_contract_C8_witness :
    initWriter.WriteJSON .unserializable true = (.encodeFailed, initWriter)
    ∧ ((initWriter.WriteJSON (.json .null) false).2.WriteJSON (.json .null) true).1 = .ok := by
  have h1 := writerError_contract_C8 initWriter .unserializable true rfl
  have h2 := writerError_contract_C8 initWriter (.json .null) false rfl
  exact ⟨h1.1 rfl, (h2.2 (encodeJson .null) rfl).2.2.2.1⟩

end Jsonbody
